import Mathlib

/-!
Verification of the bounded-retry executor `retry` from `snippets.py`.

The embedding is a shallow one.  The Python loop `for i in range(retries)`
becomes structural recursion over the list `List.range retries.toNat`, which
is exactly the sequence of indices Python's `range(retries)` yields (empty
when `retries <= 0`).  The operation under retry is modelled as a function
`fn : Nat → Except PyExc R` giving the outcome of its `j`-th invocation
(0-based); the policy itself is deterministic once those outcomes are fixed.
A run returns both how it ended (`Outcome`) and the ordered trace of
observable events (operation invocations and sleeps), so that attempt counts,
sleep counts and sleep placement can all be stated.

Python's `except exceptions:` clause catches an exception `e` exactly when
`isinstance(e, exceptions)` holds, i.e. when the class of `e` is a subclass
of some class in the tuple.  We model the relevant finite fragment of the
standard exception hierarchy; note that `KeyboardInterrupt` and `SystemExit`
derive from `BaseException` directly, not from `Exception`.
-/

/-- Python exception classes relevant to the retry helper: a fixed fragment of
the standard hierarchy. -/
inductive PyClass where
  | baseExc
  | exc
  | valueError
  | typeError
  | keyboardInterrupt
  | systemExit
  deriving DecidableEq, Repr

/-- The superclass chain of a class, the class itself included (these classes
are single-inheritance, so this is the whole instance-check basis). -/
def ancestors : PyClass → List PyClass
  | .baseExc => [.baseExc]
  | .exc => [.exc, .baseExc]
  | .valueError => [.valueError, .exc, .baseExc]
  | .typeError => [.typeError, .exc, .baseExc]
  | .keyboardInterrupt => [.keyboardInterrupt, .baseExc]
  | .systemExit => [.systemExit, .baseExc]

/-- Python's `issubclass a b` on the modelled fragment. -/
def isSubclass (a b : PyClass) : Bool :=
  decide (b ∈ ancestors a)

/-- A Python exception value: its class and its message. -/
structure PyExc where
  cls : PyClass
  msg : String
  deriving DecidableEq, Repr

/-- Python's except-clause test: the tuple `excs` catches `e` exactly when the
class of `e` is a subclass of some class in the tuple (`isinstance`). -/
def matchesHandler (e : PyExc) (excs : List PyClass) : Bool :=
  excs.any (fun c => isSubclass e.cls c)

deriving instance DecidableEq for Except

/-- An observable event of one run of `retry`: invocation number `i` of the
operation together with its outcome, or a sleep of duration `d`. -/
inductive Event (R : Type) where
  | call (i : Nat) (out : Except PyExc R)
  | sleep (d : Rat)
  deriving DecidableEq, Repr

/-- How a run of `retry` ends: a value returned by a successful attempt, an
exception propagating to the caller, or Python's implicit `None` return when
the loop body never runs (`retries <= 0`). -/
inductive Outcome (R : Type) where
  | ok (r : R)
  | raised (e : PyExc)
  | noneRet
  deriving DecidableEq, Repr

/-- The body of the `for i in range(retries)` loop of `retry` in
`snippets.py`, recursing over the list of iteration indices.  Mirrors the
source line by line: try `fn()` and return its value on success; on an
exception matched by `excs`, re-raise it if `i == retries - 1`, otherwise
sleep `d` and continue with the next iteration; an exception not matched by
`excs` propagates at once; falling off the loop returns `None`. -/
def retryLoop {R : Type} (fn : Nat → Except PyExc R) (retries : Int) (d : Rat)
    (excs : List PyClass) : List Nat → Outcome R × List (Event R)
  | [] => (Outcome.noneRet, [])
  | i :: rest =>
    match fn i with
    | .ok r => (Outcome.ok r, [Event.call i (.ok r)])
    | .error e =>
      if matchesHandler e excs then
        if (i : Int) = retries - 1 then
          (Outcome.raised e, [Event.call i (.error e)])
        else
          ((retryLoop fn retries d excs rest).1,
            Event.call i (.error e) :: Event.sleep d ::
              (retryLoop fn retries d excs rest).2)
      else
        (Outcome.raised e, [Event.call i (.error e)])

/-- The `retry` helper of `snippets.py`: run the loop body over the indices
`range(retries)` produces. -/
def retry {R : Type} (fn : Nat → Except PyExc R) (retries : Int) (d : Rat)
    (excs : List PyClass) : Outcome R × List (Event R) :=
  retryLoop fn retries d excs (List.range retries.toNat)

/-- The default of the `exceptions` parameter of `retry`: the one-element
tuple `(Exception,)`. -/
def defaultExcs : List PyClass := [PyClass.exc]

/-- Whether an event is an operation invocation. -/
def isCall {R : Type} : Event R → Bool
  | Event.call _ _ => true
  | Event.sleep _ => false

/-- Number of operation invocations recorded in a trace. -/
def calls {R : Type} (tr : List (Event R)) : Nat :=
  tr.countP isCall

/-- Number of sleeps recorded in a trace. -/
def sleeps {R : Type} (tr : List (Event R)) : Nat :=
  tr.countP (fun ev => !isCall ev)

/-! Step lemmas: one for each way an iteration of the loop can go. -/

theorem retryLoop_cons_ok {R : Type} (fn : Nat → Except PyExc R) (n : Int) (d : Rat)
    (excs : List PyClass) (i : Nat) (rest : List Nat) (r : R)
    (hfn : fn i = .ok r) :
    retryLoop fn n d excs (i :: rest) = (Outcome.ok r, [Event.call i (.ok r)]) := by
  simp [retryLoop, hfn]

theorem retryLoop_cons_nomatch {R : Type} (fn : Nat → Except PyExc R) (n : Int) (d : Rat)
    (excs : List PyClass) (i : Nat) (rest : List Nat) (e : PyExc)
    (hfn : fn i = .error e) (hm : matchesHandler e excs = false) :
    retryLoop fn n d excs (i :: rest) = (Outcome.raised e, [Event.call i (.error e)]) := by
  simp [retryLoop, hfn, hm]

theorem retryLoop_cons_last {R : Type} (fn : Nat → Except PyExc R) (n : Int) (d : Rat)
    (excs : List PyClass) (i : Nat) (rest : List Nat) (e : PyExc)
    (hfn : fn i = .error e) (hm : matchesHandler e excs = true) (hl : (i : Int) = n - 1) :
    retryLoop fn n d excs (i :: rest) = (Outcome.raised e, [Event.call i (.error e)]) := by
  simp [retryLoop, hfn, hm, hl]

theorem retryLoop_cons_retry {R : Type} (fn : Nat → Except PyExc R) (n : Int) (d : Rat)
    (excs : List PyClass) (i : Nat) (rest : List Nat) (e : PyExc)
    (hfn : fn i = .error e) (hm : matchesHandler e excs = true) (hl : (i : Int) ≠ n - 1) :
    retryLoop fn n d excs (i :: rest) =
      ((retryLoop fn n d excs rest).1,
        Event.call i (.error e) :: Event.sleep d :: (retryLoop fn n d excs rest).2) := by
  simp [retryLoop, hfn, hm, hl]

/-! Counting events in a trace. -/

theorem calls_nil {R : Type} : calls ([] : List (Event R)) = 0 := rfl

theorem calls_call {R : Type} (i : Nat) (o : Except PyExc R) (tr : List (Event R)) :
    calls (Event.call i o :: tr) = calls tr + 1 := by
  simp [calls, List.countP_cons, isCall]

theorem calls_sleep {R : Type} (d : Rat) (tr : List (Event R)) :
    calls (Event.sleep d :: tr) = calls tr := by
  simp [calls, List.countP_cons, isCall]

theorem sleeps_nil {R : Type} : sleeps ([] : List (Event R)) = 0 := rfl

theorem sleeps_call {R : Type} (i : Nat) (o : Except PyExc R) (tr : List (Event R)) :
    sleeps (Event.call i o :: tr) = sleeps tr := by
  simp [sleeps, List.countP_cons, isCall]

theorem sleeps_sleep {R : Type} (d : Rat) (tr : List (Event R)) :
    sleeps (Event.sleep d :: tr) = sleeps tr + 1 := by
  simp [sleeps, List.countP_cons, isCall]

/-! Scenario lemma: every iteration in `range' i m` fails with a retryable
exception.  The loop then runs all `m` iterations, re-raises the failure of
the last one, and sleeps `m - 1` times. -/

theorem retryLoop_allfail {R : Type} (fn : Nat → Except PyExc R) (n : Int) (d : Rat)
    (excs : List PyClass) (err : Nat → PyExc)
    (hfail : ∀ j : Nat, (j : Int) < n → fn j = .error (err j))
    (hcaught : ∀ j : Nat, (j : Int) < n → matchesHandler (err j) excs = true) :
    ∀ m i : Nat, 1 ≤ m → (i : Int) + m = n →
      (retryLoop fn n d excs (List.range' i m)).1 = Outcome.raised (err (i + m - 1)) ∧
      calls (retryLoop fn n d excs (List.range' i m)).2 = m ∧
      sleeps (retryLoop fn n d excs (List.range' i m)).2 = m - 1 := by
  intro m
  induction m with
  | zero => intro i hm _; exact absurd hm (by omega)
  | succ m' ih =>
    intro i hm hsum
    have hin : (i : Int) < n := by omega
    have hfi := hfail i hin
    have hci := hcaught i hin
    rw [List.range'_succ]
    rcases Nat.eq_zero_or_pos m' with h0 | hpos
    · subst h0
      have hl : (i : Int) = n - 1 := by omega
      rw [retryLoop_cons_last fn n d excs i _ _ hfi hci hl]
      refine ⟨by simp, by simp [calls_call, calls_nil], by simp [sleeps_call, sleeps_nil]⟩
    · have hl : (i : Int) ≠ n - 1 := by omega
      rw [retryLoop_cons_retry fn n d excs i _ _ hfi hci hl]
      obtain ⟨hout, hcalls, hsleeps⟩ := ih (i + 1) (by omega) (by omega)
      refine ⟨?_, ?_, ?_⟩
      · simpa [show i + 1 + m' - 1 = i + (m' + 1) - 1 by omega] using hout
      · simp [calls_call, calls_sleep, hcalls]
      · simp [sleeps_call, sleeps_sleep, hsleeps]
        omega

/-- C1: for every attempt budget `n >= 1` and an operation failing with a
retryable kind on every invocation, `retry` invokes the operation exactly `n`
times and propagates the failure produced by the `n`-th invocation. -/
theorem retry_exhaustion_propagates_last {R : Type} (fn : Nat → Except PyExc R)
    (n : Int) (d : Rat) (excs : List PyClass) (err : Nat → PyExc)
    (hn : 1 ≤ n)
    (hfail : ∀ j : Nat, (j : Int) < n → fn j = .error (err j))
    (hcaught : ∀ j : Nat, (j : Int) < n → matchesHandler (err j) excs = true) :
    (retry fn n d excs).1 = Outcome.raised (err (n.toNat - 1)) ∧
    calls (retry fn n d excs).2 = n.toNat := by
  have h := retryLoop_allfail fn n d excs err hfail hcaught n.toNat 0 (by omega) (by omega)
  rw [retry, List.range_eq_range']
  exact ⟨by simpa using h.1, h.2.1⟩

theorem retry_exhaustion_propagates_last_witness :
    (retry (fun _ => (Except.error ⟨PyClass.valueError, "boom"⟩ : Except PyExc Nat))
        3 1 defaultExcs).1 = Outcome.raised ⟨PyClass.valueError, "boom"⟩ ∧
    calls (retry (fun _ => (Except.error ⟨PyClass.valueError, "boom"⟩ : Except PyExc Nat))
        3 1 defaultExcs).2 = 3 :=
  retry_exhaustion_propagates_last (fun _ => Except.error ⟨PyClass.valueError, "boom"⟩)
    3 1 defaultExcs (fun _ => ⟨PyClass.valueError, "boom"⟩) (by decide)
    (fun _ _ => rfl) (fun _ _ => rfl)

example :
    retry (fun _ => (Except.error ⟨PyClass.valueError, "boom"⟩ : Except PyExc Nat))
      3 1 defaultExcs =
    (Outcome.raised ⟨PyClass.valueError, "boom"⟩,
      [Event.call 0 (.error ⟨PyClass.valueError, "boom"⟩), Event.sleep 1,
       Event.call 1 (.error ⟨PyClass.valueError, "boom"⟩), Event.sleep 1,
       Event.call 2 (.error ⟨PyClass.valueError, "boom"⟩)]) := by
  decide

example :
    retry (fun i => if i = 0 then (Except.error ⟨PyClass.valueError, "boom"⟩ : Except PyExc Nat)
      else Except.ok 42) 3 1 defaultExcs =
    (Outcome.ok 42,
      [Event.call 0 (.error ⟨PyClass.valueError, "boom"⟩), Event.sleep 1,
       Event.call 1 (.ok 42)]) := by
  decide

example :
    retry (fun _ => (Except.error ⟨PyClass.keyboardInterrupt, "stop"⟩ : Except PyExc Nat))
      3 1 defaultExcs =
    (Outcome.raised ⟨PyClass.keyboardInterrupt, "stop"⟩,
      [Event.call 0 (.error ⟨PyClass.keyboardInterrupt, "stop"⟩)]) := by
  decide

example :
    retry (fun _ => (Except.ok 7 : Except PyExc Nat)) 0 1 defaultExcs =
    (Outcome.noneRet, []) := by
  decide

/-! Scenario lemma: the first `s` iterations starting at `i` fail with a
retryable exception and iteration `i + s` succeeds.  The loop performs
`s + 1` invocations, `s` sleeps, and returns the successful value. -/

theorem retryLoop_prefix_ok {R : Type} (fn : Nat → Except PyExc R) (n : Int) (d : Rat)
    (excs : List PyClass) (err : Nat → PyExc) (r : R) :
    ∀ s m i : Nat, s < m → (i : Int) + m = n →
      (∀ j : Nat, i ≤ j → j < i + s →
        fn j = .error (err j) ∧ matchesHandler (err j) excs = true) →
      fn (i + s) = .ok r →
      (retryLoop fn n d excs (List.range' i m)).1 = Outcome.ok r ∧
      calls (retryLoop fn n d excs (List.range' i m)).2 = s + 1 ∧
      sleeps (retryLoop fn n d excs (List.range' i m)).2 = s := by
  intro s
  induction s with
  | zero =>
    intro m i hsm hsum _ hsucc
    obtain ⟨m', rfl⟩ : ∃ m', m = m' + 1 := ⟨m - 1, by omega⟩
    rw [List.range'_succ,
      retryLoop_cons_ok fn n d excs i _ r (by simpa using hsucc)]
    exact ⟨by simp, by simp [calls_call, calls_nil], by simp [sleeps_call, sleeps_nil]⟩
  | succ s' ih =>
    intro m i hsm hsum hfail hsucc
    obtain ⟨m', rfl⟩ : ∃ m', m = m' + 1 := ⟨m - 1, by omega⟩
    obtain ⟨hfi, hci⟩ := hfail i (le_refl i) (by omega)
    have hl : (i : Int) ≠ n - 1 := by omega
    rw [List.range'_succ, retryLoop_cons_retry fn n d excs i _ _ hfi hci hl]
    obtain ⟨hout, hcalls, hsleeps⟩ := ih m' (i + 1) (by omega) (by omega)
      (fun j h1 h2 => hfail j (by omega) (by omega))
      (by rw [show i + 1 + s' = i + (s' + 1) by omega]; exact hsucc)
    refine ⟨hout, ?_, ?_⟩
    · simp [calls_call, calls_sleep, hcalls]
    · simp [sleeps_call, sleeps_sleep, hsleeps]

/-- C2: with budget `n` and `1 <= k <= n`, an operation that fails with a
retryable kind on its first `k - 1` invocations and succeeds on the `k`-th
returns that invocation's result, is invoked exactly `k` times, and `k - 1`
sleeps of the configured delay occur. -/
theorem retry_success_after_failures {R : Type} (fn : Nat → Except PyExc R)
    (n : Int) (d : Rat) (excs : List PyClass) (err : Nat → PyExc) (r : R) (k : Nat)
    (hk : 1 ≤ k) (hkn : (k : Int) ≤ n)
    (hfail : ∀ j : Nat, j < k - 1 →
      fn j = .error (err j) ∧ matchesHandler (err j) excs = true)
    (hsucc : fn (k - 1) = .ok r) :
    (retry fn n d excs).1 = Outcome.ok r ∧
    calls (retry fn n d excs).2 = k ∧
    sleeps (retry fn n d excs).2 = k - 1 := by
  have h := retryLoop_prefix_ok fn n d excs err r (k - 1) n.toNat 0 (by omega) (by omega)
    (fun j _ h2 => hfail j (by omega)) (by simpa using hsucc)
  rw [retry, List.range_eq_range']
  exact ⟨h.1, h.2.1.trans (by omega), h.2.2⟩

theorem retry_success_after_failures_witness :
    (retry (fun i => if i = 0 then (Except.error ⟨PyClass.valueError, "boom"⟩ : Except PyExc Nat)
        else Except.ok 42) 3 1 defaultExcs).1 = Outcome.ok 42 ∧
    calls (retry (fun i => if i = 0 then (Except.error ⟨PyClass.valueError, "boom"⟩ : Except PyExc Nat)
        else Except.ok 42) 3 1 defaultExcs).2 = 2 ∧
    sleeps (retry (fun i => if i = 0 then (Except.error ⟨PyClass.valueError, "boom"⟩ : Except PyExc Nat)
        else Except.ok 42) 3 1 defaultExcs).2 = 1 :=
  retry_success_after_failures
    (fun i => if i = 0 then (Except.error ⟨PyClass.valueError, "boom"⟩ : Except PyExc Nat)
      else Except.ok 42)
    3 1 defaultExcs (fun _ => ⟨PyClass.valueError, "boom"⟩) 42 2 (by decide) (by decide)
    (fun j hj => by interval_cases j; exact ⟨rfl, rfl⟩) rfl

/-- C3: a first-attempt failure with a kind not matched by `excs` propagates
immediately: the operation is invoked exactly once, no sleep occurs, and no
further attempt consumes the remaining budget. -/
theorem retry_nonretryable_first_attempt {R : Type} (fn : Nat → Except PyExc R)
    (n : Int) (d : Rat) (excs : List PyClass) (e : PyExc)
    (hn : 1 ≤ n) (h0 : fn 0 = .error e) (hm : matchesHandler e excs = false) :
    (retry fn n d excs).1 = Outcome.raised e ∧
    calls (retry fn n d excs).2 = 1 ∧
    sleeps (retry fn n d excs).2 = 0 := by
  obtain ⟨m, hm'⟩ : ∃ m, n.toNat = m + 1 := ⟨n.toNat - 1, by omega⟩
  rw [retry, hm', List.range_eq_range', List.range'_succ,
    retryLoop_cons_nomatch fn n d excs 0 _ e h0 hm]
  exact ⟨by simp, by simp [calls_call, calls_nil], by simp [sleeps_call, sleeps_nil]⟩

theorem retry_nonretryable_first_attempt_witness :
    (retry (fun _ => (Except.error ⟨PyClass.keyboardInterrupt, "stop"⟩ : Except PyExc Nat))
        3 1 defaultExcs).1 = Outcome.raised ⟨PyClass.keyboardInterrupt, "stop"⟩ ∧
    calls (retry (fun _ => (Except.error ⟨PyClass.keyboardInterrupt, "stop"⟩ : Except PyExc Nat))
        3 1 defaultExcs).2 = 1 ∧
    sleeps (retry (fun _ => (Except.error ⟨PyClass.keyboardInterrupt, "stop"⟩ : Except PyExc Nat))
        3 1 defaultExcs).2 = 0 :=
  retry_nonretryable_first_attempt
    (fun _ => Except.error ⟨PyClass.keyboardInterrupt, "stop"⟩)
    3 1 defaultExcs ⟨PyClass.keyboardInterrupt, "stop"⟩ (by decide) rfl rfl

/-! Totality invariant: once at least one iteration index remains, the loop
always ends in a returned value or a raised exception (never Python's
implicit None), after between 1 and `m` invocations. -/

theorem retryLoop_total {R : Type} (fn : Nat → Except PyExc R) (n : Int) (d : Rat)
    (excs : List PyClass) :
    ∀ m i : Nat, 1 ≤ m → (i : Int) + m = n →
      (retryLoop fn n d excs (List.range' i m)).1 ≠ Outcome.noneRet ∧
      1 ≤ calls (retryLoop fn n d excs (List.range' i m)).2 ∧
      calls (retryLoop fn n d excs (List.range' i m)).2 ≤ m := by
  intro m
  induction m with
  | zero => intro i hm _; exact absurd hm (by omega)
  | succ m' ih =>
    intro i _ hsum
    rw [List.range'_succ]
    cases hfn : fn i with
    | ok r =>
      rw [retryLoop_cons_ok fn n d excs i _ r hfn]
      exact ⟨by simp, by simp [calls_call, calls_nil], by simp [calls_call, calls_nil]⟩
    | error e =>
      cases hm : matchesHandler e excs with
      | false =>
        rw [retryLoop_cons_nomatch fn n d excs i _ e hfn hm]
        exact ⟨by simp, by simp [calls_call, calls_nil], by simp [calls_call, calls_nil]⟩
      | true =>
        by_cases hl : (i : Int) = n - 1
        · rw [retryLoop_cons_last fn n d excs i _ e hfn hm hl]
          exact ⟨by simp, by simp [calls_call, calls_nil], by simp [calls_call, calls_nil]⟩
        · have hpos : 1 ≤ m' := by omega
          rw [retryLoop_cons_retry fn n d excs i _ e hfn hm hl]
          obtain ⟨hout, h1, h2⟩ := ih (i + 1) hpos (by omega)
          refine ⟨hout, ?_, ?_⟩
          · simp [calls_call, calls_sleep]
          · simp [calls_call, calls_sleep]
            omega

/-- C4: with budget `n >= 1`, every execution ends in exactly one of a
returned result or a propagated failure, and the number of operation
invocations lies between 1 and `n` inclusive. -/
theorem retry_exactly_one_outcome {R : Type} (fn : Nat → Except PyExc R)
    (n : Int) (d : Rat) (excs : List PyClass) (hn : 1 ≤ n) :
    ((∃ r, (retry fn n d excs).1 = Outcome.ok r) ∨
      (∃ e, (retry fn n d excs).1 = Outcome.raised e)) ∧
    ¬ ((∃ r, (retry fn n d excs).1 = Outcome.ok r) ∧
      (∃ e, (retry fn n d excs).1 = Outcome.raised e)) ∧
    1 ≤ calls (retry fn n d excs).2 ∧ calls (retry fn n d excs).2 ≤ n.toNat := by
  have h := retryLoop_total fn n d excs n.toNat 0 (by omega) (by omega)
  rw [retry, List.range_eq_range']
  refine ⟨?_, ?_, h.2.1, h.2.2⟩
  · cases hq : (retryLoop fn n d excs (List.range' 0 n.toNat)).1 with
    | ok r => exact Or.inl ⟨r, rfl⟩
    | raised e => exact Or.inr ⟨e, rfl⟩
    | noneRet => exact absurd hq h.1
  · rintro ⟨⟨r, hr⟩, ⟨e, he⟩⟩
    rw [hr] at he
    exact Outcome.noConfusion he

theorem retry_exactly_one_outcome_witness :
    ((∃ r, (retry (fun _ => (Except.ok 42 : Except PyExc Nat)) 2 1 defaultExcs).1
        = Outcome.ok r) ∨
      (∃ e, (retry (fun _ => (Except.ok 42 : Except PyExc Nat)) 2 1 defaultExcs).1
        = Outcome.raised e)) ∧
    ¬ ((∃ r, (retry (fun _ => (Except.ok 42 : Except PyExc Nat)) 2 1 defaultExcs).1
        = Outcome.ok r) ∧
      (∃ e, (retry (fun _ => (Except.ok 42 : Except PyExc Nat)) 2 1 defaultExcs).1
        = Outcome.raised e)) ∧
    1 ≤ calls (retry (fun _ => (Except.ok 42 : Except PyExc Nat)) 2 1 defaultExcs).2 ∧
    calls (retry (fun _ => (Except.ok 42 : Except PyExc Nat)) 2 1 defaultExcs).2 ≤ (2 : Int).toNat :=
  retry_exactly_one_outcome (fun _ => Except.ok 42) 2 1 defaultExcs (by decide)

/-! Shape of the trace: with at least one iteration left, the trace starts
with the invocation of index `i`, ends with an invocation, and every sleep in
it is immediately preceded by a retryably-failed invocation and immediately
followed by the next invocation. -/

theorem retryLoop_trace_shape {R : Type} (fn : Nat → Except PyExc R) (n : Int) (d : Rat)
    (excs : List PyClass) :
    ∀ m i : Nat, 1 ≤ m → (i : Int) + m = n →
      (∃ o, (retryLoop fn n d excs (List.range' i m)).2.head? = some (Event.call i o)) ∧
      (∃ j o, (retryLoop fn n d excs (List.range' i m)).2.getLast? = some (Event.call j o)) ∧
      (∀ pre dd post,
        (retryLoop fn n d excs (List.range' i m)).2 = pre ++ Event.sleep dd :: post →
        (∃ j o, post.head? = some (Event.call j o)) ∧
        ∃ j e, pre.getLast? = some (Event.call j (Except.error e)) ∧
          matchesHandler e excs = true) := by
  intro m
  induction m with
  | zero => intro i hm _; exact absurd hm (by omega)
  | succ m' ih =>
    intro i _ hsum
    rw [List.range'_succ]
    have single : ∀ ev : Event R,
        (∃ o, [ev].head? = some (Event.call i o)) →
        (∃ o, ([ev] : List (Event R)).head? = some (Event.call i o)) ∧
        (∃ j o, ([ev] : List (Event R)).getLast? = some (Event.call j o)) ∧
        (∀ pre dd post, ([ev] : List (Event R)) = pre ++ Event.sleep dd :: post →
          (∃ j o, post.head? = some (Event.call j o)) ∧
          ∃ j e, pre.getLast? = some (Event.call j (Except.error e)) ∧
            matchesHandler e excs = true) := by
      rintro ev ⟨o, ho⟩
      simp only [List.head?_cons, Option.some.injEq] at ho
      subst ho
      refine ⟨⟨o, rfl⟩, ⟨i, o, rfl⟩, ?_⟩
      intro pre dd post hdec
      rcases pre with _ | ⟨a, pre'⟩
      · simp at hdec
      · rw [List.cons_append] at hdec
        obtain ⟨-, habs⟩ := List.cons.inj hdec
        exact absurd habs (by simp)
    cases hfn : fn i with
    | ok r =>
      rw [retryLoop_cons_ok fn n d excs i _ r hfn]
      exact single _ ⟨.ok r, rfl⟩
    | error e =>
      cases hm : matchesHandler e excs with
      | false =>
        rw [retryLoop_cons_nomatch fn n d excs i _ e hfn hm]
        exact single _ ⟨.error e, rfl⟩
      | true =>
        by_cases hl : (i : Int) = n - 1
        · rw [retryLoop_cons_last fn n d excs i _ e hfn hm hl]
          exact single _ ⟨.error e, rfl⟩
        · have hpos : 1 ≤ m' := by omega
          rw [retryLoop_cons_retry fn n d excs i _ e hfn hm hl]
          obtain ⟨⟨o', hhead⟩, ⟨jl, ol, hlast⟩, hbet⟩ := ih (i + 1) hpos (by omega)
          set tr : List (Event R) := (retryLoop fn n d excs (List.range' (i + 1) m')).2
            with htr
          obtain ⟨tr0, trs, htr'⟩ : ∃ tr0 trs, tr = tr0 :: trs := by
            rcases tr with _ | ⟨a, l⟩
            · simp at hhead
            · exact ⟨a, l, rfl⟩
          have hne : tr ≠ [] := by rw [htr']; simp
          refine ⟨⟨.error e, rfl⟩, ?_, ?_⟩
          · refine ⟨jl, ol, ?_⟩
            rw [htr'] at hlast ⊢
            rw [List.getLast?_cons_cons, List.getLast?_cons_cons]
            exact hlast
          · intro pre dd post hdec
            rcases pre with _ | ⟨a, pre₁⟩
            · simp at hdec
            · rw [List.cons_append] at hdec
              obtain ⟨ha, hdec₁⟩ := List.cons.inj hdec
              rcases pre₁ with _ | ⟨b, pre₂⟩
              · simp only [List.nil_append] at hdec₁
                obtain ⟨-, hpost⟩ := List.cons.inj hdec₁
                subst ha
                constructor
                · refine ⟨i + 1, o', ?_⟩
                  rw [← hpost]
                  exact hhead
                · exact ⟨i, e, rfl, hm⟩
              · rw [List.cons_append] at hdec₁
                obtain ⟨hb, hdec₂⟩ := List.cons.inj hdec₁
                obtain ⟨hposthead, jp, ep, hgl, hmp⟩ := hbet pre₂ dd post hdec₂
                refine ⟨hposthead, jp, ep, ?_, hmp⟩
                obtain ⟨c, pre₃, hpre₂⟩ : ∃ c pre₃, pre₂ = c :: pre₃ := by
                  rcases pre₂ with _ | ⟨c, l⟩
                  · simp at hgl
                  · exact ⟨c, l, rfl⟩
                subst ha hb
                rw [hpre₂] at hgl ⊢
                rw [List.getLast?_cons_cons, List.getLast?_cons_cons]
                exact hgl

/-- C5: the trace of every run with budget `n >= 1` never ends with a sleep
(no sleep after the final attempt, successful or budget-exhausting), and
every sleep in it is immediately preceded by an invocation that failed with a
retryable kind and immediately followed by the next invocation. -/
theorem retry_no_sleep_after_final {R : Type} (fn : Nat → Except PyExc R)
    (n : Int) (d : Rat) (excs : List PyClass) (hn : 1 ≤ n) :
    (∃ j o, (retry fn n d excs).2.getLast? = some (Event.call j o)) ∧
    (∀ pre dd post, (retry fn n d excs).2 = pre ++ Event.sleep dd :: post →
      (∃ j o, post.head? = some (Event.call j o)) ∧
      ∃ j e, pre.getLast? = some (Event.call j (Except.error e)) ∧
        matchesHandler e excs = true) := by
  have h := retryLoop_trace_shape fn n d excs n.toNat 0 (by omega) (by omega)
  rw [retry, List.range_eq_range']
  exact ⟨h.2.1, h.2.2⟩

theorem retry_no_sleep_after_final_witness :
    (∃ j o, (retry (fun i => if i = 0 then (Except.error ⟨PyClass.valueError, "boom"⟩ : Except PyExc Nat)
        else Except.ok 7) 2 1 defaultExcs).2.getLast? = some (Event.call j o)) ∧
    (∀ pre dd post,
      (retry (fun i => if i = 0 then (Except.error ⟨PyClass.valueError, "boom"⟩ : Except PyExc Nat)
        else Except.ok 7) 2 1 defaultExcs).2 = pre ++ Event.sleep dd :: post →
      (∃ j o, post.head? = some (Event.call j o)) ∧
      ∃ j e, pre.getLast? = some (Event.call j (Except.error e)) ∧
        matchesHandler e defaultExcs = true) :=
  retry_no_sleep_after_final
    (fun i => if i = 0 then (Except.error ⟨PyClass.valueError, "boom"⟩ : Except PyExc Nat)
      else Except.ok 7) 2 1 defaultExcs (by decide)

/-- C6 counterexample: with `retries = 0` the call is not rejected and no
failure is signalled; `retry` returns Python's implicit `None` with an empty
trace, so the operation is attempted zero times. -/
theorem retry_zero_attempts_cex :
    retry (fun _ => (Except.error ⟨PyClass.valueError, "boom"⟩ : Except PyExc Nat))
      0 1 defaultExcs = (Outcome.noneRet, []) := by
  decide

/-- C6 (amended): for `retries < 1` the call is not rejected as a contract
violation: no failure is signalled, `retry` returns Python's `None`, and the
operation is invoked zero times. -/
theorem retry_below_one_not_rejected {R : Type} (fn : Nat → Except PyExc R)
    (n : Int) (d : Rat) (excs : List PyClass) (hn : n < 1) :
    (retry fn n d excs).1 = Outcome.noneRet ∧
    calls (retry fn n d excs).2 = 0 := by
  have h0 : n.toNat = 0 := by omega
  rw [retry, h0]
  exact ⟨rfl, rfl⟩

theorem retry_below_one_not_rejected_witness :
    (retry (fun _ => (Except.ok 5 : Except PyExc Nat)) 0 1 defaultExcs).1
      = Outcome.noneRet ∧
    calls (retry (fun _ => (Except.ok 5 : Except PyExc Nat)) 0 1 defaultExcs).2 = 0 :=
  retry_below_one_not_rejected (fun _ => Except.ok 5) 0 1 defaultExcs (by decide)

/-- C7: for `retries <= 0` the loop body never runs: `retry` returns `None`
with an empty trace, so the operation is never invoked and no sleep is
performed. -/
theorem retry_nonpositive_returns_none {R : Type} (fn : Nat → Except PyExc R)
    (n : Int) (d : Rat) (excs : List PyClass) (hn : n ≤ 0) :
    retry fn n d excs = (Outcome.noneRet, []) ∧
    calls (retry fn n d excs).2 = 0 ∧
    sleeps (retry fn n d excs).2 = 0 := by
  have h0 : n.toNat = 0 := by omega
  rw [retry, h0]
  exact ⟨rfl, rfl, rfl⟩

theorem retry_nonpositive_returns_none_witness :
    retry (fun _ => (Except.ok 9 : Except PyExc Nat)) (-1) 1 defaultExcs
      = (Outcome.noneRet, []) ∧
    calls (retry (fun _ => (Except.ok 9 : Except PyExc Nat)) (-1) 1 defaultExcs).2 = 0 ∧
    sleeps (retry (fun _ => (Except.ok 9 : Except PyExc Nat)) (-1) 1 defaultExcs).2 = 0 :=
  retry_nonpositive_returns_none (fun _ => Except.ok 9) (-1) 1 defaultExcs (by decide)

/-! Origin of a raised exception: whatever the loop raises is, unchanged, the
exception produced by one of the invocations in the iteration list — namely
the one recorded by the final invocation event of the trace. -/

theorem retryLoop_raised_src {R : Type} (fn : Nat → Except PyExc R) (n : Int) (d : Rat)
    (excs : List PyClass) (e : PyExc) :
    ∀ l : List Nat, (retryLoop fn n d excs l).1 = Outcome.raised e →
      ∃ j, j ∈ l ∧ fn j = .error e ∧
        (retryLoop fn n d excs l).2.getLast? = some (Event.call j (.error e)) := by
  intro l
  induction l with
  | nil => intro h; simp [retryLoop] at h
  | cons i rest ih =>
    intro h
    cases hfn : fn i with
    | ok r =>
      rw [retryLoop_cons_ok fn n d excs i rest r hfn] at h
      exact absurd h (by simp)
    | error e' =>
      cases hm : matchesHandler e' excs with
      | false =>
        rw [retryLoop_cons_nomatch fn n d excs i rest e' hfn hm] at h ⊢
        obtain rfl : e' = e := by simpa using h
        exact ⟨i, by simp, hfn, rfl⟩
      | true =>
        by_cases hl : (i : Int) = n - 1
        · rw [retryLoop_cons_last fn n d excs i rest e' hfn hm hl] at h ⊢
          obtain rfl : e' = e := by simpa using h
          exact ⟨i, by simp, hfn, rfl⟩
        · rw [retryLoop_cons_retry fn n d excs i rest e' hfn hm hl] at h ⊢
          obtain ⟨j, hjmem, hfj, hlast⟩ := ih (by simpa using h)
          refine ⟨j, by simp [hjmem], hfj, ?_⟩
          obtain ⟨a, tr', hcons⟩ :
              ∃ a tr', (retryLoop fn n d excs rest).2 = a :: tr' := by
            rcases hq : (retryLoop fn n d excs rest).2 with _ | ⟨a, l'⟩
            · rw [hq] at hlast; simp at hlast
            · exact ⟨a, l', rfl⟩
          simp only [hcons] at hlast ⊢
          rw [List.getLast?_cons_cons, List.getLast?_cons_cons]
          exact hlast

/-- C8: whenever `retry` propagates a failure, the propagated value is,
unchanged, the exception some invocation of the operation produced (class and
message included), recorded by the final invocation event of the trace; the
policy never fabricates or wraps an error. -/
theorem retry_propagates_original_failure {R : Type} (fn : Nat → Except PyExc R)
    (n : Int) (d : Rat) (excs : List PyClass) (e : PyExc)
    (h : (retry fn n d excs).1 = Outcome.raised e) :
    ∃ j : Nat, (j : Int) < n ∧ fn j = .error e ∧
      (retry fn n d excs).2.getLast? = some (Event.call j (.error e)) := by
  obtain ⟨j, hjmem, hfj, hlast⟩ :=
    retryLoop_raised_src fn n d excs e (List.range n.toNat) (by rwa [retry] at h)
  refine ⟨j, ?_, hfj, ?_⟩
  · have := List.mem_range.mp hjmem
    omega
  · rwa [retry]

theorem retry_propagates_original_failure_witness :
    ∃ j : Nat, (j : Int) < 2 ∧
      (fun _ => (Except.error ⟨PyClass.typeError, "bad"⟩ : Except PyExc Nat)) j
        = .error ⟨PyClass.typeError, "bad"⟩ ∧
      (retry (fun _ => (Except.error ⟨PyClass.typeError, "bad"⟩ : Except PyExc Nat))
          2 1 defaultExcs).2.getLast?
        = some (Event.call j (.error ⟨PyClass.typeError, "bad"⟩)) :=
  retry_propagates_original_failure
    (fun _ => Except.error ⟨PyClass.typeError, "bad"⟩) 2 1 defaultExcs
    ⟨PyClass.typeError, "bad"⟩ (by decide)

/-- C9 counterexample: with the default `exceptions = (Exception,)`, a
failure whose class does not derive from `Exception` is not retryable: an
operation that always fails with `KeyboardInterrupt` under budget 3 is
invoked once and the failure propagates immediately, consuming no budget. -/
theorem retry_default_kinds_cex :
    retry (fun _ => (Except.error ⟨PyClass.keyboardInterrupt, "stop"⟩ : Except PyExc Nat))
      3 1 defaultExcs =
    (Outcome.raised ⟨PyClass.keyboardInterrupt, "stop"⟩,
      [Event.call 0 (.error ⟨PyClass.keyboardInterrupt, "stop"⟩)]) := by
  decide

/-- C9 (amended): the default `exceptions` tuple `(Exception,)` treats
exactly the failure kinds deriving from `Exception` as retryable; an
always-failing operation whose failure classes all derive from `Exception`
has every failure consumed against the budget: all `n` invocations run and
the `n`-th failure is propagated. -/
theorem retry_default_retries_exception_kinds {R : Type} (fn : Nat → Except PyExc R)
    (n : Int) (d : Rat) (err : Nat → PyExc)
    (hn : 1 ≤ n)
    (hfail : ∀ j : Nat, (j : Int) < n → fn j = .error (err j))
    (hsub : ∀ j : Nat, (j : Int) < n → isSubclass (err j).cls PyClass.exc = true) :
    (∀ e : PyExc, matchesHandler e defaultExcs = isSubclass e.cls PyClass.exc) ∧
    (retry fn n d defaultExcs).1 = Outcome.raised (err (n.toNat - 1)) ∧
    calls (retry fn n d defaultExcs).2 = n.toNat := by
  have hchar : ∀ e : PyExc, matchesHandler e defaultExcs = isSubclass e.cls PyClass.exc := by
    intro e
    simp [matchesHandler, defaultExcs]
  have hcaught : ∀ j : Nat, (j : Int) < n → matchesHandler (err j) defaultExcs = true := by
    intro j hj
    rw [hchar]
    exact hsub j hj
  have h := retryLoop_allfail fn n d defaultExcs err hfail hcaught n.toNat 0
    (by omega) (by omega)
  rw [retry, List.range_eq_range']
  exact ⟨hchar, by simpa using h.1, h.2.1⟩

theorem retry_default_retries_exception_kinds_witness :
    (∀ e : PyExc, matchesHandler e defaultExcs = isSubclass e.cls PyClass.exc) ∧
    (retry (fun _ => (Except.error ⟨PyClass.typeError, "bad"⟩ : Except PyExc Nat))
        2 1 defaultExcs).1 = Outcome.raised ⟨PyClass.typeError, "bad"⟩ ∧
    calls (retry (fun _ => (Except.error ⟨PyClass.typeError, "bad"⟩ : Except PyExc Nat))
        2 1 defaultExcs).2 = 2 :=
  retry_default_retries_exception_kinds
    (fun _ => Except.error ⟨PyClass.typeError, "bad"⟩) 2 1
    (fun _ => ⟨PyClass.typeError, "bad"⟩) (by decide) (fun _ _ => rfl) (fun _ _ => rfl)

/-- C10: with `retries = 1` no retry ever occurs, whatever the failure kind:
any first-invocation failure propagates at once, with exactly one invocation
and no sleep. -/
theorem retry_single_attempt_propagates {R : Type} (fn : Nat → Except PyExc R)
    (d : Rat) (excs : List PyClass) (e : PyExc)
    (h0 : fn 0 = .error e) :
    retry fn 1 d excs = (Outcome.raised e, [Event.call 0 (.error e)]) ∧
    calls (retry fn 1 d excs).2 = 1 ∧
    sleeps (retry fn 1 d excs).2 = 0 := by
  have hrange : List.range (1 : Int).toNat = [0] := rfl
  have hstep : retryLoop fn 1 d excs [0] = (Outcome.raised e, [Event.call 0 (.error e)]) := by
    cases hm : matchesHandler e excs with
    | true => exact retryLoop_cons_last fn 1 d excs 0 [] e h0 hm (by decide)
    | false => exact retryLoop_cons_nomatch fn 1 d excs 0 [] e h0 hm
  rw [retry, hrange, hstep]
  exact ⟨rfl, rfl, rfl⟩

theorem retry_single_attempt_propagates_witness :
    retry (fun _ => (Except.error ⟨PyClass.valueError, "boom"⟩ : Except PyExc Nat)) 1 1 defaultExcs
      = (Outcome.raised ⟨PyClass.valueError, "boom"⟩,
        [Event.call 0 (.error ⟨PyClass.valueError, "boom"⟩)]) ∧
    calls (retry (fun _ => (Except.error ⟨PyClass.valueError, "boom"⟩ : Except PyExc Nat))
        1 1 defaultExcs).2 = 1 ∧
    sleeps (retry (fun _ => (Except.error ⟨PyClass.valueError, "boom"⟩ : Except PyExc Nat))
        1 1 defaultExcs).2 = 0 :=
  retry_single_attempt_propagates
    (fun _ => Except.error ⟨PyClass.valueError, "boom"⟩) 1 defaultExcs
    ⟨PyClass.valueError, "boom"⟩ rfl
